import Mathlib

/-!
Shallow embedding of `demos/nrf52810-codegen/src/main.rs`: the RTFM
application gluing the rubble BLE stack to the nRF52810 hardware.  The
external crates (rubble, bbqueue, the HAL) are modelled abstractly: their
operations appear as function-valued parameters, and the definitions below
embed exactly the control flow that the application file itself contains.
All definitions come first; the theorems about them follow.
-/

namespace Rubble

/-! ### Device address derivation (main.rs lines 95-112) -/

/-- Modelled from the spec: the address-kind tag of a BLE device address
(`rubble::link::AddressKind`, defined in the rubble crate, outside this
file): a 1-bit flag, Public or Random. -/
inductive AddressKind where
  | Public
  | Random
deriving DecidableEq, Repr

/-- Modelled from the spec: a 6-byte BLE device address together with its
kind (`rubble::link::DeviceAddress`, defined in the rubble crate, outside
this file). Bytes are machine bytes, kept as `Nat < 256`. -/
structure DeviceAddress where
  bytes : List Nat
  kind : AddressKind
deriving DecidableEq, Repr

/-- `byteorder::LittleEndian::write_u32`: the four little-endian bytes of a
32-bit value. -/
def writeU32LE (v : Nat) : List Nat :=
  [v % 256, v / 256 % 256, v / 2 ^ 16 % 256, v / 2 ^ 24 % 256]

/-- `byteorder::LittleEndian::write_u16`: the two little-endian bytes of a
16-bit value. -/
def writeU16LE (v : Nat) : List Nat :=
  [v % 256, v / 256 % 256]

/-- Decode four little-endian bytes back into a 32-bit value. -/
def readU32LE (bs : List Nat) : Nat :=
  match bs with
  | [b0, b1, b2, b3] => b0 + b1 * 256 + b2 * 2 ^ 16 + b3 * 2 ^ 24
  | _ => 0

/-- Decode two little-endian bytes back into a 16-bit value. -/
def readU16LE (bs : List Nat) : Nat :=
  match bs with
  | [b0, b1] => b0 + b1 * 256
  | _ => 0

/-- Embedding of the device-address derivation in `init` (main.rs 95-112).
`devaddrLo` is the raw 32-bit `FICR.deviceaddr[0]` register value (kept
below `2 ^ 32` by the `% 2 ^ 32`), `devaddrHiReg` the raw 32-bit
`FICR.deviceaddr[1]` value, truncated `as u16` by `% 2 ^ 16`, and
`isPublic` the `FICR.deviceaddrtype` register's `is_public()` reading.
The first four address bytes come from `LittleEndian::write_u32`, the last
two from `LittleEndian::write_u16`. -/
def deriveDeviceAddress (devaddrLo devaddrHiReg : Nat) (isPublic : Bool) :
    DeviceAddress :=
  let devaddrHi := devaddrHiReg % 2 ^ 16
  { bytes := writeU32LE (devaddrLo % 2 ^ 32) ++ writeU16LE devaddrHi
    kind := if isPublic then AddressKind.Public else AddressKind.Random }

/-! ### The interrupt-driven scheduler state (main.rs lines 49-175)

Types `L` (link-layer engine core), `R` (radio driver), `C` (radio
configuration), `D` (timer deadline/instant) and `P` (responder) stand for
the external crates' opaque state.  The timer driver is modelled by the
observable interface main.rs uses: `now()`, `is_interrupt_pending()`,
`clear_interrupt()` and `configure_interrupt(deadline)`. -/

/-- The command a `LinkLayer::update` call returns (rubble's `Cmd`): a radio
configuration and the deadline for the next timer interrupt
(main.rs lines 168-174). -/
structure Cmd (C D : Type) where
  radio : C
  next_update : D
deriving DecidableEq, Repr

/-- Observable timer-driver state: the current reading `now`, whether the
compare event this application handles is pending, and the deadline the
interrupt is armed for (`none` before the first `configure_interrupt`). -/
structure TimerSt (D : Type) where
  now : D
  pending : Bool
  armed : Option D
deriving DecidableEq, Repr

/-- The RTFM application's resource state: the timer, the link-layer engine
core, the radio driver, the responder, the log queue's readable grants and
the bytes written to the UART so far (`BLE_LL`, `RADIO`, `BLE_R`,
`LOG_SINK`, `SERIAL` in main.rs lines 51-57). -/
structure Sys (L R C D P : Type) where
  timer : TimerSt D
  ll : L
  radio : R
  responder : P
  logSink : List (List Nat)
  serial : List Nat
deriving DecidableEq, Repr

/-- The external link-layer/radio operations main.rs calls from interrupt
context: `LinkLayer::update(&mut radio)` returning a `Cmd`,
`BleRadio::configure_receiver(cfg)`, and
`BleRadio::recv_interrupt(now, &mut ll)` returning the next deadline.
Each is an opaque function on the opaque states. -/
structure Ext (L R C D : Type) where
  update : L → R → Cmd C D × L × R
  configure_receiver : R → C → R
  recv_interrupt : R → D → L → D × R × L

/-- Embedding of the `TIMER0` interrupt handler (main.rs lines 160-175):
if the timer's interrupt is not pending, return immediately; otherwise
clear the pending flag, run `BLE_LL.update(&mut RADIO)`, apply
`RADIO.configure_receiver(cmd.radio)`, and re-arm the timer's interrupt
for `cmd.next_update`. -/
def timer0Handler {L R C D P : Type} (ext : Ext L R C D) (s : Sys L R C D P) :
    Sys L R C D P :=
  if s.timer.pending = false then s
  else
    let cleared : TimerSt D := { s.timer with pending := false }
    let res := ext.update s.ll s.radio
    let cmd := res.1
    let ll' := res.2.1
    let radioAfterUpdate := res.2.2
    let radio' := ext.configure_receiver radioAfterUpdate cmd.radio
    { s with
      timer := { cleared with armed := some cmd.next_update }
      ll := ll'
      radio := radio' }

/-- Embedding of the `RADIO` interrupt handler (main.rs lines 152-158):
run `RADIO.recv_interrupt(BLE_LL.timer().now(), &mut BLE_LL)` and re-arm the
timer's interrupt for the returned deadline. -/
def radioHandler {L R C D P : Type} (ext : Ext L R C D) (s : Sys L R C D P) :
    Sys L R C D P :=
  let res := ext.recv_interrupt s.radio s.timer.now s.ll
  let next_update := res.1
  let radio' := res.2.1
  let ll' := res.2.2
  { s with
    radio := radio'
    ll := ll'
    timer := { s.timer with armed := some next_update } }

/-! ### The idle task (main.rs lines 177-195) -/

/-- The external responder operations the idle task calls:
`Responder::has_work()` and `Responder::process_one()`, the latter fallible. -/
structure RespExt (P E : Type) where
  has_work : P → Bool
  process_one : P → Except E P

/-- One application step of the idle loop (main.rs lines 191-193):
`if BLE_R.has_work() { BLE_R.process_one().unwrap(); }`.  The `Nat`
component instruments the number of `process_one` calls the step performs;
an `Except.error` result is the state in which `unwrap` panics. -/
def appStepTr {P E : Type} (re : RespExt P E) (p : P) : Except E P × Nat :=
  if re.has_work p then (re.process_one p, 1) else (Except.ok p, 0)

/-- `n` iterations of the idle loop's application step, accumulating the
instrumented `process_one` call count and stopping at the first panic. -/
def idleRun {P E : Type} (re : RespExt P E) : Nat → P → Except E P × Nat
  | 0, p => (Except.ok p, 0)
  | n + 1, p =>
    let step := appStepTr re p
    match step.1 with
    | Except.ok p' =>
      let rest := idleRun re n p'
      (rest.1, step.2 + rest.2)
    | Except.error e => (Except.error e, step.2)

/-- `slice::chunks(n)` on a byte slice (main.rs line 183): successive
contiguous chunks of `n` elements, the last possibly shorter; the empty
slice yields no chunks. -/
def chunksOf {A : Type} (n : Nat) (xs : List A) : List (List A) :=
  if h : xs.isEmpty ∨ n = 0 then []
  else xs.take n :: chunksOf n (xs.drop n)
termination_by xs.length
decreasing_by
  have h1 : xs ≠ [] := by
    intro he
    exact h (Or.inl (by simp [he]))
  have h2 : n ≠ 0 := fun he => h (Or.inr he)
  have h3 : 0 < xs.length := List.length_pos.mpr h1
  simp only [List.length_drop]
  omega

/-- The UART driver as the idle task sees it: whether a single
`Uarte::write` transfer of a given chunk succeeds. -/
structure Uart where
  writeOk : List Nat → Bool

/-- Write a list of chunks to the UART in order, appending each to the
serial output; `none` models the `unwrap` panic on a failed transfer
(main.rs line 184). -/
def writeChunks (u : Uart) (serial : List Nat) : List (List Nat) → Option (List Nat)
  | [] => some serial
  | c :: cs => if u.writeOk c then writeChunks u (serial ++ c) cs else none

/-- The drain loop body iterated to exhaustion (main.rs lines 182-188):
for each readable grant in order, write its bytes to the UART in chunks of
at most 255 bytes, then release exactly the grant's full length — modelled
by consuming the whole grant from the sink.  Returns the final serial
output, or `none` if a UART write panicked. -/
def drainSink (u : Uart) : List (List Nat) → List Nat → Option (List Nat)
  | [], serial => some serial
  | g :: gs, serial =>
    match writeChunks u serial (chunksOf 255 g) with
    | some serial' => drainSink u gs serial'
    | none => none

/-- The idle loop's drain step (main.rs lines 181-189): guarded by
`cfg!(feature = "log")` — when the log feature is compiled out the whole
step is skipped; otherwise the sink is drained to the UART.  Returns the
remaining sink contents and serial output, or `none` on a write panic. -/
def drainStep (logEnabled : Bool) (u : Uart) (sink : List (List Nat))
    (serial : List Nat) : Option (List (List Nat) × List Nat) :=
  if logEnabled then
    match drainSink u sink serial with
    | some serial' => some ([], serial')
    | none => none
  else some (sink, serial)

/-! ### Initialization (main.rs lines 59-150) -/

/-- Modelled from the spec: the advertisement payload's AD-structure kind
used by `init` (`rubble::link::ad_structure::AdStructure::CompleteLocalName`,
defined in the rubble crate, outside this file); only the variant `init`
constructs is modelled. -/
inductive AdStructure where
  | CompleteLocalName (name : String)
deriving DecidableEq, Repr

/-- Modelled from the spec: `rubble::time::Duration` (defined in the rubble
crate, outside this file), observed only through `Duration::from_millis`
and recorded in milliseconds. -/
structure Duration where
  millis : Nat
deriving DecidableEq, Repr

/-- Modelled from the spec: `Duration::from_millis`. -/
def Duration.from_millis (ms : Nat) : Duration := ⟨ms⟩

/-- The compiled-in advertised complete local name (main.rs line 137). -/
def ADV_NAME : String := "CONCVRRENS CERTA CELERIS"

/-- The data `init` constructs that the claims observe: the derived device
address, the backing capacities of the two byte queues created by
`queue::create(bbq![MIN_PDU_BUF * 2])` (TX = engine-to-application,
RX = application-to-engine), the advertising parameters passed to
`start_advertise`, and the deadline the first `configure_interrupt` arms. -/
structure InitResult (D : Type) where
  deviceAddress : DeviceAddress
  txQueueCap : Nat
  rxQueueCap : Nat
  advInterval : Duration
  advPayload : List AdStructure
  armed : D
deriving DecidableEq, Repr

/-- Embedding of the `init` task (main.rs lines 59-150), abstracted over
`MIN_PDU_BUF` (a rubble constant, not part of this file), the raw factory
register readings, and the external `LinkLayer::start_advertise` call.
It derives the device address, creates the two queues with backing size
`MIN_PDU_BUF * 2` each, calls `start_advertise` with a 200 ms interval and
the single `CompleteLocalName` AD structure, and — per the `.unwrap()` at
main.rs line 142 — panics (`none`) if `start_advertise` fails, else arms
the timer interrupt for the returned deadline. -/
def initModel {E D : Type} (minPduBuf lo hiReg : Nat) (isPublic : Bool)
    (start_advertise : Duration → List AdStructure → Except E D) :
    Option (InitResult D) :=
  let addr := deriveDeviceAddress lo hiReg isPublic
  let txCap := minPduBuf * 2
  let rxCap := minPduBuf * 2
  match start_advertise (Duration.from_millis 200)
      [AdStructure.CompleteLocalName ADV_NAME] with
  | Except.ok next_update =>
    some { deviceAddress := addr
           txQueueCap := txCap
           rxQueueCap := rxCap
           advInterval := Duration.from_millis 200
           advPayload := [AdStructure.CompleteLocalName ADV_NAME]
           armed := next_update }
  | Except.error _ => none

/-! ### Concrete sample values used by the witnesses -/

/-- A concrete instance of the external link-layer/radio operations. -/
def extN : Ext Nat Nat Nat Nat where
  update := fun l r => ({ radio := l + r, next_update := l + 40 }, l + 1, r + 2)
  configure_receiver := fun r c => r * 100 + c
  recv_interrupt := fun r now l => (now + 7, r + now, l + 3)

/-- A concrete system state whose timer interrupt is pending. -/
def sysPending : Sys Nat Nat Nat Nat Nat where
  timer := { now := 5, pending := true, armed := none }
  ll := 1
  radio := 2
  responder := 9
  logSink := [[1, 2]]
  serial := [0]

/-- A concrete system state whose timer interrupt is not pending. -/
def sysIdle : Sys Nat Nat Nat Nat Nat where
  timer := { now := 5, pending := false, armed := some 3 }
  ll := 1
  radio := 2
  responder := 9
  logSink := [[1, 2]]
  serial := [0]

/-- A concrete UART on which every transfer succeeds. -/
def uartOk : Uart where
  writeOk := fun _ => true

/-- A concrete UART on which every transfer fails. -/
def uartBad : Uart where
  writeOk := fun _ => false

/-- A concrete UART on which only the transfer of the chunk `[2]` fails. -/
def uartFailOn2 : Uart where
  writeOk := fun c => !(c == [2])

/-- A concrete `start_advertise` that always fails. -/
def advFail : Duration → List AdStructure → Except Nat Nat :=
  fun _ _ => Except.error 7

/-- A concrete `start_advertise` that succeeds with deadline 11. -/
def advOk : Duration → List AdStructure → Except Nat Nat :=
  fun _ _ => Except.ok 11

/-- A concrete responder whose `process_one` always fails. -/
def respBad : RespExt Nat Nat where
  has_work := fun _ => true
  process_one := fun _ => Except.error 3

/-! ### Theorems -/

theorem readU32LE_writeU32LE (v : Nat) (h : v < 2 ^ 32) :
    readU32LE (writeU32LE v) = v := by
  simp only [readU32LE, writeU32LE]
  omega

theorem readU16LE_writeU16LE (v : Nat) (h : v < 2 ^ 16) :
    readU16LE (writeU16LE v) = v := by
  simp only [readU16LE, writeU16LE]
  omega

/-- Claim C1: the derived device address is a pure deterministic function of
the two factory register values and the address-kind register; its first
four bytes are the little-endian encoding of the 32-bit register value, its
last two bytes the little-endian encoding of the 16-bit register value, the
kind is `Public` exactly when the type register reads public, and re-running
the derivation on identical register contents yields an identical address. -/
theorem deviceAddress_derivation (lo hiReg : Nat) (isPublic : Bool)
    (hlo : lo < 2 ^ 32) :
    (deriveDeviceAddress lo hiReg isPublic).bytes.length = 6 ∧
    (deriveDeviceAddress lo hiReg isPublic).bytes.take 4 = writeU32LE lo ∧
    readU32LE ((deriveDeviceAddress lo hiReg isPublic).bytes.take 4) = lo ∧
    (deriveDeviceAddress lo hiReg isPublic).bytes.drop 4 =
      writeU16LE (hiReg % 2 ^ 16) ∧
    readU16LE ((deriveDeviceAddress lo hiReg isPublic).bytes.drop 4) =
      hiReg % 2 ^ 16 ∧
    (deriveDeviceAddress lo hiReg isPublic).kind =
      (if isPublic then AddressKind.Public else AddressKind.Random) ∧
    deriveDeviceAddress lo hiReg isPublic =
      deriveDeviceAddress lo hiReg isPublic := by
  refine ⟨?_, ?_, ?_, ?_, ?_, ?_, rfl⟩
  · simp [deriveDeviceAddress, writeU32LE, writeU16LE]
  · simp only [deriveDeviceAddress, writeU32LE, writeU16LE]
    simp
    omega
  · simp only [deriveDeviceAddress, writeU32LE, writeU16LE]
    simp [readU32LE]
    omega
  · simp [deriveDeviceAddress, writeU32LE, writeU16LE]
  · simp only [deriveDeviceAddress, writeU32LE, writeU16LE]
    simp [readU16LE]
    omega
  · simp [deriveDeviceAddress]

/-- Witness for C1 at a concrete pair of register readings. -/
theorem deviceAddress_derivation_witness :
    (305419896 : Nat) < 2 ^ 32 ∧
    ((deriveDeviceAddress 305419896 70000 false).bytes.length = 6 ∧
    (deriveDeviceAddress 305419896 70000 false).bytes.take 4 =
      writeU32LE 305419896 ∧
    readU32LE ((deriveDeviceAddress 305419896 70000 false).bytes.take 4) =
      305419896 ∧
    (deriveDeviceAddress 305419896 70000 false).bytes.drop 4 =
      writeU16LE (70000 % 2 ^ 16) ∧
    readU16LE ((deriveDeviceAddress 305419896 70000 false).bytes.drop 4) =
      70000 % 2 ^ 16 ∧
    (deriveDeviceAddress 305419896 70000 false).kind =
      (if false then AddressKind.Public else AddressKind.Random) ∧
    deriveDeviceAddress 305419896 70000 false =
      deriveDeviceAddress 305419896 70000 false) :=
  ⟨by decide, deviceAddress_derivation 305419896 70000 false (by decide)⟩

/-- Claim C2: whenever the timer reports no pending interrupt at entry, the
`TIMER0` handler returns immediately without mutating any state: the pending
flag is not cleared, the engine's `update` result is not applied, the radio
is not reconfigured, and the timer interrupt is not re-armed. -/
theorem timer0_no_pending_noop {L R C D P : Type} (ext : Ext L R C D)
    (s : Sys L R C D P) (h : s.timer.pending = false) :
    timer0Handler ext s = s := by
  simp [timer0Handler, h]

/-- Witness for C2 at a concrete not-pending state. -/
theorem timer0_no_pending_noop_witness :
    sysIdle.timer.pending = false ∧ timer0Handler extN sysIdle = sysIdle :=
  ⟨rfl, timer0_no_pending_noop extN sysIdle rfl⟩

/-- Claim C3: whenever the timer reports a pending interrupt at entry, the
`TIMER0` handler clears the pending flag, calls the engine's `update` with
the radio, applies the returned command's radio configuration through
`configure_receiver`, re-arms the timer interrupt for that command's
`next_update` deadline, and changes nothing else. -/
theorem timer0_pending_sequence {L R C D P : Type} (ext : Ext L R C D)
    (s : Sys L R C D P) (h : s.timer.pending = true) :
    timer0Handler ext s =
      { s with
        timer := { s.timer with
                   pending := false
                   armed := some (ext.update s.ll s.radio).1.next_update }
        ll := (ext.update s.ll s.radio).2.1
        radio := ext.configure_receiver (ext.update s.ll s.radio).2.2
                   (ext.update s.ll s.radio).1.radio } := by
  simp [timer0Handler, h]

/-- Witness for C3 at a concrete pending state. -/
theorem timer0_pending_sequence_witness :
    sysPending.timer.pending = true ∧
    timer0Handler extN sysPending =
      { sysPending with
        timer := { sysPending.timer with
                   pending := false
                   armed :=
                     some (extN.update sysPending.ll sysPending.radio).1.next_update }
        ll := (extN.update sysPending.ll sysPending.radio).2.1
        radio :=
          extN.configure_receiver (extN.update sysPending.ll sysPending.radio).2.2
            (extN.update sysPending.ll sysPending.radio).1.radio } :=
  ⟨rfl, timer0_pending_sequence extN sysPending rfl⟩

/-- Claim C4: on every invocation the `RADIO` handler calls the radio
driver's `recv_interrupt` with the timer's current reading and the
link-layer engine, re-arms the timer interrupt for exactly the returned
deadline, and performs no logging, no queue draining and no other state
change. -/
theorem radio_handler_forwards {L R C D P : Type} (ext : Ext L R C D)
    (s : Sys L R C D P) :
    radioHandler ext s =
      { s with
        radio := (ext.recv_interrupt s.radio s.timer.now s.ll).2.1
        ll := (ext.recv_interrupt s.radio s.timer.now s.ll).2.2
        timer := { s.timer with
                   armed := some (ext.recv_interrupt s.radio s.timer.now s.ll).1 } } ∧
    (radioHandler ext s).serial = s.serial ∧
    (radioHandler ext s).logSink = s.logSink ∧
    (radioHandler ext s).responder = s.responder ∧
    (radioHandler ext s).timer.pending = s.timer.pending ∧
    (radioHandler ext s).timer.now = s.timer.now :=
  ⟨rfl, rfl, rfl, rfl, rfl, rfl⟩

/-- Claim C5: per idle-loop iteration the application step calls
`process_one` at most once, calls it exactly when `has_work` holds in that
iteration, and over any `n` iterations at most `n` units of work are
processed. -/
theorem idle_process_one_per_iteration {P E : Type} (re : RespExt P E) :
    (∀ p, (appStepTr re p).2 ≤ 1) ∧
    (∀ p, ((appStepTr re p).2 = 1 ↔ re.has_work p = true)) ∧
    (∀ n p, (idleRun re n p).2 ≤ n) := by
  have hstep : ∀ p, (appStepTr re p).2 ≤ 1 := by
    intro p
    by_cases hw : re.has_work p <;> simp [appStepTr, hw]
  refine ⟨hstep, ?_, ?_⟩
  · intro p
    by_cases hw : re.has_work p <;> simp [appStepTr, hw]
  · intro n
    induction n with
    | zero => intro p; simp [idleRun]
    | succ n ih =>
      intro p
      have h1 := hstep p
      rw [idleRun]
      cases hres : (appStepTr re p).1 with
      | ok p' =>
        simp only [hres]
        have h2 := ih p'
        omega
      | error e =>
        simp only [hres]
        omega

/-- `chunksOf` splits a list into chunks of length at most `n`. -/
theorem chunksOf_length_le {A : Type} (n : Nat) :
    ∀ (xs : List A), ∀ c ∈ chunksOf n xs, c.length ≤ n := by
  have main : ∀ (k : Nat) (xs : List A), xs.length ≤ k →
      ∀ c ∈ chunksOf n xs, c.length ≤ n := by
    intro k
    induction k with
    | zero =>
      intro xs hx c hc
      have hxe : xs = [] := by
        cases xs with
        | nil => rfl
        | cons a as => simp at hx
      subst hxe
      rw [chunksOf] at hc
      simp at hc
    | succ k ih =>
      intro xs hx c hc
      rw [chunksOf] at hc
      by_cases hcond : xs.isEmpty ∨ n = 0
      · rw [dif_pos hcond] at hc
        simp at hc
      · rw [dif_neg hcond] at hc
        have hxne : xs ≠ [] := by
          intro he
          exact hcond (Or.inl (by simp [he]))
        have hlen : (xs.drop n).length ≤ k := by
          have h0 : 0 < xs.length := List.length_pos.mpr hxne
          have hn0 : n ≠ 0 := fun he => hcond (Or.inr he)
          simp only [List.length_drop]
          omega
        rcases List.mem_cons.mp hc with hhd | htl
        · subst hhd
          simp [List.length_take]
        · exact ih (xs.drop n) hlen c htl
  intro xs
  exact main xs.length xs le_rfl

/-- For a positive chunk size, concatenating the chunks of a list in order
recovers the list. -/
theorem chunksOf_join {A : Type} (n : Nat) (hn : n ≠ 0) :
    ∀ xs : List A, (chunksOf n xs).flatten = xs := by
  have main : ∀ (k : Nat) (xs : List A), xs.length ≤ k →
      (chunksOf n xs).flatten = xs := by
    intro k
    induction k with
    | zero =>
      intro xs hx
      have hxe : xs = [] := by
        cases xs with
        | nil => rfl
        | cons a as => simp at hx
      subst hxe
      rw [chunksOf]
      simp
    | succ k ih =>
      intro xs hx
      rw [chunksOf]
      by_cases hcond : xs.isEmpty ∨ n = 0
      · rcases hcond with hxe | hne
        · have : xs = [] := by
            cases xs with
            | nil => rfl
            | cons a as => simp at hxe
          subst this
          simp
        · exact absurd hne hn
      · rw [dif_neg hcond]
        have hxne : xs ≠ [] := by
          intro he
          exact hcond (Or.inl (by simp [he]))
        have hlen : (xs.drop n).length ≤ k := by
          have h0 : 0 < xs.length := List.length_pos.mpr hxne
          simp only [List.length_drop]
          omega
        simp only [List.flatten_cons]
        rw [ih (xs.drop n) hlen]
        exact List.take_append_drop n xs
  intro xs
  exact main xs.length xs le_rfl

/-- When every transfer succeeds, writing a chunk list appends its
concatenation to the serial output. -/
theorem writeChunks_ok (u : Uart) (hu : ∀ c, u.writeOk c = true) :
    ∀ (cs : List (List Nat)) (serial : List Nat),
      writeChunks u serial cs = some (serial ++ cs.flatten) := by
  intro cs
  induction cs with
  | nil => intro serial; simp [writeChunks]
  | cons c cs ih =>
    intro serial
    simp [writeChunks, hu c, ih, List.append_assoc]

/-- When every transfer succeeds, draining the sink appends every grant's
bytes, in order, to the serial output. -/
theorem drainSink_ok (u : Uart) (hu : ∀ c, u.writeOk c = true) :
    ∀ (gs : List (List Nat)) (serial : List Nat),
      drainSink u gs serial = some (serial ++ gs.flatten) := by
  intro gs
  induction gs with
  | nil => intro serial; simp [drainSink]
  | cons g gs ih =>
    intro serial
    simp only [drainSink]
    rw [writeChunks_ok u hu]
    rw [chunksOf_join 255 (by decide) g]
    simp [ih, List.append_assoc]

/-- Claim C6: while the log consumer has readable grants the drain step
writes each grant's bytes to the UART in chunks of at most 255 bytes whose
in-order concatenation is the grant, then releases exactly the grant's full
length (the whole grant leaves the sink); with the log feature compiled out
the drain step is skipped entirely, whatever the queue holds. -/
theorem drain_step_spec (u : Uart) (sink : List (List Nat))
    (serial : List Nat) (hu : ∀ c, u.writeOk c = true) :
    drainStep true u sink serial = some ([], serial ++ sink.flatten) ∧
    (∀ (g : List Nat), ∀ c ∈ chunksOf 255 g, c.length ≤ 255) ∧
    (∀ g : List Nat, (chunksOf 255 g).flatten = g) ∧
    drainStep false u sink serial = some (sink, serial) := by
  refine ⟨?_, ?_, ?_, rfl⟩
  · simp [drainStep, drainSink_ok u hu]
  · intro g
    exact chunksOf_length_le 255 g
  · intro g
    exact chunksOf_join 255 (by decide) g

/-- Witness for C6 on a concrete sink and an always-succeeding UART. -/
theorem drain_step_spec_witness :
    (∀ c, uartOk.writeOk c = true) ∧
    (drainStep true uartOk [[10, 20], [30]] [1] =
      some ([], [1] ++ [[10, 20], [30]].flatten) ∧
    (∀ (g : List Nat), ∀ c ∈ chunksOf 255 g, c.length ≤ 255) ∧
    (∀ g : List Nat, (chunksOf 255 g).flatten = g) ∧
    drainStep false uartOk [[10, 20], [30]] [1] = some ([[10, 20], [30]], [1])) :=
  ⟨fun _ => rfl, drain_step_spec uartOk [[10, 20], [30]] [1] (fun _ => rfl)⟩

/-- Claim C7: fatal errors abort rather than being recovered: a
`start_advertise` error makes `init` panic with no retry, and a
`process_one` error makes the idle task panic; neither continues in a
degraded mode. -/
theorem fatal_errors_abort :
    (∀ (E D : Type) (minPduBuf lo hiReg : Nat) (isPublic : Bool)
      (sa : Duration → List AdStructure → Except E D) (e : E),
      sa (Duration.from_millis 200) [AdStructure.CompleteLocalName ADV_NAME] =
        Except.error e →
      initModel minPduBuf lo hiReg isPublic sa = none) ∧
    (∀ (P E : Type) (re : RespExt P E) (p : P) (e : E),
      re.has_work p = true → re.process_one p = Except.error e →
      (appStepTr re p).1 = Except.error e) := by
  constructor
  · intro E D minPduBuf lo hiReg isPublic sa e h
    simp [initModel, h]
  · intro P E re p e hw hp
    simp [appStepTr, hw, hp]

/-- Witness for C7: a failing `start_advertise` and a failing responder. -/
theorem fatal_errors_abort_witness :
    (advFail (Duration.from_millis 200)
        [AdStructure.CompleteLocalName ADV_NAME] = Except.error 7 ∧
      initModel 39 0 0 true advFail = none) ∧
    (respBad.has_work 0 = true ∧ respBad.process_one 0 = Except.error 3 ∧
      (appStepTr respBad 0).1 = Except.error 3) :=
  ⟨⟨rfl, fatal_errors_abort.1 Nat Nat 39 0 0 true advFail 7 rfl⟩,
   ⟨rfl, rfl, fatal_errors_abort.2 Nat Nat respBad 0 3 rfl rfl⟩⟩

/-- Claim C8: initialization constructs exactly two byte queues, one per
payload direction, each with backing capacity twice the maximum protocol
data unit size `MIN_PDU_BUF`. -/
theorem init_two_queues {E D : Type} (minPduBuf lo hiReg : Nat)
    (isPublic : Bool) (sa : Duration → List AdStructure → Except E D)
    (r : InitResult D) (h : initModel minPduBuf lo hiReg isPublic sa = some r) :
    [r.txQueueCap, r.rxQueueCap].length = 2 ∧
    r.txQueueCap = 2 * minPduBuf ∧ r.rxQueueCap = 2 * minPduBuf := by
  simp only [initModel] at h
  cases hsa : sa (Duration.from_millis 200)
      [AdStructure.CompleteLocalName ADV_NAME] with
  | ok d =>
    rw [hsa] at h
    simp only [Option.some.injEq] at h
    subst h
    refine ⟨rfl, ?_, ?_⟩ <;> simp [Nat.mul_comm]
  | error e =>
    rw [hsa] at h
    simp at h

/-- A concrete successful `init` outcome, used by the witnesses below. -/
def rSample : InitResult Nat where
  deviceAddress := deriveDeviceAddress 1 2 true
  txQueueCap := 78
  rxQueueCap := 78
  advInterval := Duration.from_millis 200
  advPayload := [AdStructure.CompleteLocalName ADV_NAME]
  armed := 11

/-- Witness for C8 at a concrete successful initialization. -/
theorem init_two_queues_witness :
    initModel 39 1 2 true advOk = some rSample ∧
    ([rSample.txQueueCap, rSample.rxQueueCap].length = 2 ∧
      rSample.txQueueCap = 2 * 39 ∧ rSample.rxQueueCap = 2 * 39) :=
  ⟨rfl, init_two_queues 39 1 2 true advOk rSample rfl⟩

/-- Claim C10: initialization starts advertising with an interval of exactly
200 milliseconds and a payload of exactly one AD structure, the complete
local name "CONCVRRENS CERTA CELERIS"; both are compiled-in constants. -/
theorem init_advertising_constants {E D : Type} (minPduBuf lo hiReg : Nat)
    (isPublic : Bool) (sa : Duration → List AdStructure → Except E D)
    (r : InitResult D) (h : initModel minPduBuf lo hiReg isPublic sa = some r) :
    r.advInterval = Duration.from_millis 200 ∧ r.advInterval.millis = 200 ∧
    r.advPayload =
      [AdStructure.CompleteLocalName "CONCVRRENS CERTA CELERIS"] ∧
    r.advPayload.length = 1 := by
  simp only [initModel] at h
  cases hsa : sa (Duration.from_millis 200)
      [AdStructure.CompleteLocalName ADV_NAME] with
  | ok d =>
    rw [hsa] at h
    simp only [Option.some.injEq] at h
    subst h
    exact ⟨rfl, rfl, rfl, rfl⟩
  | error e =>
    rw [hsa] at h
    simp at h

/-- Witness for C10 at a concrete successful initialization. -/
theorem init_advertising_constants_witness :
    initModel 39 1 2 true advOk = some rSample ∧
    (rSample.advInterval = Duration.from_millis 200 ∧
      rSample.advInterval.millis = 200 ∧
      rSample.advPayload =
        [AdStructure.CompleteLocalName "CONCVRRENS CERTA CELERIS"] ∧
      rSample.advPayload.length = 1) :=
  ⟨rfl, init_advertising_constants 39 1 2 true advOk rSample rfl⟩

/-- If any chunk in the list fails to write, the chunk loop panics. -/
theorem writeChunks_none_of_mem (u : Uart) (c : List Nat)
    (hw : u.writeOk c = false) :
    ∀ (cs : List (List Nat)) (serial : List Nat), c ∈ cs →
      writeChunks u serial cs = none := by
  intro cs
  induction cs with
  | nil =>
    intro serial hc
    simp at hc
  | cons c' cs' ih =>
    intro serial hc
    by_cases hok : u.writeOk c' = true
    · have hne : c ≠ c' := by
        intro he
        rw [he, hok] at hw
        exact Bool.true_eq_false.mp hw
      have hmem : c ∈ cs' := by
        rcases List.mem_cons.mp hc with he | hm
        · exact absurd he hne
        · exact hm
      simp [writeChunks, hok, ih (serial ++ c') hmem]
    · simp [writeChunks, Bool.eq_false_iff.mpr hok]

/-- If any grant in the sink contains a chunk whose write fails, the whole
drain loop panics. -/
theorem drainSink_none_of_mem (u : Uart) (g c : List Nat)
    (hc : c ∈ chunksOf 255 g) (hw : u.writeOk c = false) :
    ∀ (gs : List (List Nat)) (serial : List Nat), g ∈ gs →
      drainSink u gs serial = none := by
  intro gs
  induction gs with
  | nil =>
    intro serial hg
    simp at hg
  | cons g' gs' ih =>
    intro serial hg
    rcases List.mem_cons.mp hg with he | hm
    · subst he
      simp [drainSink, writeChunks_none_of_mem u c hw (chunksOf 255 g) serial hc]
    · simp only [drainSink]
      cases hres : writeChunks u serial (chunksOf 255 g') with
      | none => rfl
      | some serial' => exact ih serial' hm

/-- Claim C9: in the drain step a failed UART transfer is fatal: the write
result is unwrapped, so as soon as any chunk of any grant fails to write —
wherever it sits in the drain — the idle task panics instead of skipping or
dropping the data. -/
theorem uart_write_error_fatal (u : Uart) (sink : List (List Nat))
    (serial : List Nat) (g : List Nat) (hg : g ∈ sink) (c : List Nat)
    (hc : c ∈ chunksOf 255 g) (hw : u.writeOk c = false) :
    drainStep true u sink serial = none := by
  simp [drainStep, drainSink_none_of_mem u g c hc hw sink serial hg]

/-- Witness for C9: the failing chunk belongs to the second grant of the
sink, after the first grant drained successfully. -/
theorem uart_write_error_fatal_witness :
    [2] ∈ [[1], [2]] ∧ [2] ∈ chunksOf 255 [2] ∧
    uartFailOn2.writeOk [2] = false ∧
    drainStep true uartFailOn2 [[1], [2]] [] = none :=
  ⟨by simp, by simp [chunksOf], rfl,
   uart_write_error_fatal uartFailOn2 [[1], [2]] [] [2] (by simp) [2]
     (by simp [chunksOf]) rfl⟩

end Rubble
